import Mathlib

/-!
Verification development for the Monty Hall game core (`pkg/game`:
`door.go`, `game.go`, `host.go`, `random.go`).

Modelling conventions:

* Go `int` becomes `Int`; list indexing `doors[i]` becomes
  `List.getD doors i.toNat default` (callers validate ranges before
  indexing, so the `default` branch is never taken on validated paths).
* Randomness is made explicit.  A draw from `crypto/rand` is modelled by a
  function `secure : Int → Option Int` (`some r` when the OS source
  succeeds, `none` when it fails); a `math/rand` generator's `Intn` is
  modelled by a function `Int → Int`.  The predicates `SecureSourceOk`
  and `IntnSourceOk` state the range guarantees of the real generators.
* Go methods that mutate their receiver and return an `error` are modelled
  as functions `Game → ... → Game × Option String`: the first component is
  the (possibly partially mutated) receiver state after the call, the
  second is the returned error, `none` meaning `nil`.  This keeps the
  receiver state visible even on error paths, matching pointer-receiver
  semantics in `game.go`.
* Wall-clock fields (`GameStartTime`, `GameDuration`, `Timestamp`) and the
  host's display name are omitted: no verified property mentions them.
-/

namespace MontyHall

/-- Door visibility state (`door.go`, `DoorState`). -/
inductive DoorState where
  | Closed
  | Opened
  | Selected
deriving DecidableEq, Repr

/-- Door content (`door.go`, `DoorContent`). -/
inductive DoorContent where
  | Goat
  | Car
deriving DecidableEq, Repr

/-- One door record (`door.go`, `Door`). -/
structure Door where
  ID : Int
  State : DoorState
  Content : DoorContent
  Position : Int
deriving DecidableEq, Repr

instance : Inhabited Door :=
  ⟨{ ID := 0, State := DoorState.Closed, Content := DoorContent.Goat, Position := 0 }⟩

/-- Number of doors (`game.go`, `NumDoors = 3`). -/
def NumDoors : Nat := 3

/-- Constructor `NewDoor` (`door.go`): a new door starts `Closed`. -/
def NewDoor (id position : Int) (content : DoorContent) : Door :=
  { ID := id, State := DoorState.Closed, Content := content, Position := position }

/-- Method `Door.Open` (`door.go`): sets the state to `Opened`. -/
def Door.Open (d : Door) : Door := { d with State := DoorState.Opened }

/-- Method `Door.Select` (`door.go`): sets the state to `Selected`. -/
def Door.Select (d : Door) : Door := { d with State := DoorState.Selected }

/-- Method `Door.Reset` (`door.go`): sets the state back to `Closed`. -/
def Door.Reset (d : Door) : Door := { d with State := DoorState.Closed }

/-- Predicate `Door.IsOpen` (`door.go`). -/
def Door.IsOpen (d : Door) : Bool := decide (d.State = DoorState.Opened)

/-- Predicate `Door.IsSelected` (`door.go`). -/
def Door.IsSelected (d : Door) : Bool := decide (d.State = DoorState.Selected)

/-- Predicate `Door.IsClosed` (`door.go`). -/
def Door.IsClosed (d : Door) : Bool := decide (d.State = DoorState.Closed)

/-- Predicate `Door.HasCar` (`door.go`). -/
def Door.HasCar (d : Door) : Bool := decide (d.Content = DoorContent.Car)

/-- Predicate `Door.HasGoat` (`door.go`). -/
def Door.HasGoat (d : Door) : Bool := decide (d.Content = DoorContent.Goat)

/-- Range guarantee of a modelled `crypto/rand` draw: whenever the secure
source succeeds with `some r` on bound `n`, the result lies in `[0, n)`.
This is the contract of `rand.Int(rand.Reader, big.NewInt(n))`. -/
def SecureSourceOk (secure : Int → Option Int) : Prop :=
  ∀ n r, secure n = some r → 0 ≤ r ∧ r < n

/-- Range guarantee of a modelled `math/rand` generator: `Intn n ∈ [0, n)`
for positive `n`. -/
def IntnSourceOk (rng : Int → Int) : Prop :=
  ∀ n, 0 < n → 0 ≤ rng n ∧ rng n < n

/-- Method `SecureRandom.Intn` (`random.go`): returns `0` for `n ≤ 0`,
otherwise tries the `crypto/rand` draw first and falls back to the
time-seeded `math/rand` generator only when the secure draw fails. -/
def SecureRandom.Intn (secure : Int → Option Int) (fallbackRNG : Int → Int)
    (n : Int) : Int :=
  if n ≤ 0 then 0
  else
    match secure n with
    | some r => r
    | none => fallbackRNG n

/-- Candidate doors the host may open (the `validChoices` slice built inside
`ChooseDoorToOpen` in `host.go`): indices that are not the player's choice
and whose door has a goat. -/
def hostValidChoices (doors : List Door) (playerChoice : Int) : List Nat :=
  (List.range doors.length).filter
    (fun (i : Nat) => decide ((i : Int) ≠ playerChoice) && (doors.getD i default).HasGoat)

/-- Method `Host.ChooseDoorToOpen` (`host.go`): validates the door count and
the player's choice, builds the candidate list, errors when it is empty,
returns the single candidate when there is exactly one, and otherwise picks
among the candidates with a `SecureIntn` draw. -/
def ChooseDoorToOpen (secure : Int → Option Int) (fallbackRNG : Int → Int)
    (doors : List Door) (playerChoice : Int) : Except String Int :=
  if doors.length ≠ NumDoors then
    Except.error "invalid number of doors"
  else if playerChoice < 0 ∨ playerChoice ≥ (doors.length : Int) then
    Except.error "invalid player choice"
  else
    let validChoices := hostValidChoices doors playerChoice
    if validChoices.length = 0 then
      Except.error "no valid doors to open"
    else if validChoices.length = 1 then
      Except.ok ((validChoices.getD 0 0 : Nat) : Int)
    else
      Except.ok
        ((validChoices.getD
            (SecureRandom.Intn secure fallbackRNG (validChoices.length : Int)).toNat 0 : Nat) : Int)

/-- Method `Host.GetSwitchRecommendation` (`host.go`): after the same two
validations, returns the first door index that is neither the player's
choice nor open. -/
def GetSwitchRecommendation (doors : List Door) (playerChoice : Int) :
    Except String Int :=
  if doors.length ≠ NumDoors then
    Except.error "invalid number of doors"
  else if playerChoice < 0 ∨ playerChoice ≥ (doors.length : Int) then
    Except.error "invalid player choice"
  else
    match (List.range doors.length).find?
        (fun (i : Nat) => decide ((i : Int) ≠ playerChoice) && !(doors.getD i default).IsOpen) with
    | some i => Except.ok (i : Int)
    | none => Except.error "no door available to switch to"

/-- Method `Host.GetHint` (`host.go`): guards the choice range, then renders
the switch recommendation into the hint string (Go formats it with
`Sprintf("Statistically, switching to door %d gives you better odds!",
switchDoor+1)`). -/
def GetHint (doors : List Door) (playerChoice : Int) : String :=
  if playerChoice < 0 ∨ playerChoice ≥ (doors.length : Int) then
    "Choose a door first!"
  else
    match GetSwitchRecommendation doors playerChoice with
    | Except.error _ => "I can\x27t give you a hint right now."
    | Except.ok switchDoor =>
        "Statistically, switching to door " ++ toString (switchDoor + 1) ++
          " gives you better odds!"

/-- Game phase (`game.go`, `GamePhase`). -/
inductive GamePhase where
  | Setup
  | InitialChoice
  | HostReveal
  | FinalChoice
  | GameOver
deriving DecidableEq, Repr

/-- Player strategy (`game.go`, `PlayerStrategy`). -/
inductive PlayerStrategy where
  | Stay
  | Switch
deriving DecidableEq, Repr

/-- Outcome record (`game.go`, `GameResult`), without the wall-clock
fields `GameDuration` and `Timestamp`. -/
structure GameResult where
  Won : Bool
  Strategy : PlayerStrategy
  InitialChoice : Int
  FinalChoice : Int
  CarPosition : Int
  HostOpenedDoor : Int
deriving DecidableEq, Repr

/-- The aggregate game state (`game.go`, `Game`), without `GameStartTime`
and the stateless `Host` record. -/
structure Game where
  Doors : List Door
  Phase : GamePhase
  PlayerInitialChoice : Int
  PlayerFinalChoice : Int
  HostOpenedDoor : Int
  CarPosition : Int
  Result : Option GameResult
deriving DecidableEq, Repr

/-- Assignment `doors[i] = f(doors[i])` on a Go slice, as a pure update:
the element at (0-based) position `i` is replaced by `f` of it, every other
element is kept.  An out-of-range `i` leaves the list unchanged (Go would
panic there; all modelled call sites index in range). -/
def setDoorAt : List Door → Int → (Door → Door) → List Door
  | [], _, _ => []
  | d :: rest, i, f => (if i = 0 then f d else d) :: setDoorAt rest (i - 1) f

/-- Function `CreateDoorsWithRandomCar` (`door.go`): draws the car position
from a freshly time-seeded `math/rand` generator (`rng.Intn(NumDoors)`) and
builds three closed doors, the one at the drawn position holding the car.
Note the draw comes from the pseudorandom generator `rng`, not from the
secure source of `random.go`. -/
def CreateDoorsWithRandomCar (rng : Int → Int) : List Door :=
  let carPosition := rng (NumDoors : Int)
  (List.range NumDoors).map
    (fun i => NewDoor ((i : Int) + 1) (i : Int)
      (if (i : Int) = carPosition then DoorContent.Car else DoorContent.Goat))

/-- Count of doors holding the car. -/
def carCount (doors : List Door) : Nat :=
  (doors.filter (fun d => d.HasCar)).length

/-- Constructor `NewGame` (`game.go`): creates the doors, initializes every
choice index to `-1`, scans the doors for the car position (the field's Go
zero value `0` remains if no door has the car), and advances the phase to
`InitialChoice` before returning. -/
def NewGame (rng : Int → Int) : Game :=
  let doors := CreateDoorsWithRandomCar rng
  { Doors := doors
    Phase := GamePhase.InitialChoice
    PlayerInitialChoice := -1
    PlayerFinalChoice := -1
    HostOpenedDoor := -1
    CarPosition :=
      match doors.findIdx? (fun d => d.HasCar) with
      | some i => (i : Int)
      | none => 0
    Result := none }

/-- Method `Game.MakeInitialChoice` (`game.go`): validates phase and range,
then records the choice, selects the door, advances to `HostReveal`, asks
the host which door to open, and on success opens it and advances to
`FinalChoice`.  On a host error the partially mutated receiver state is
kept, exactly as with Go's pointer receiver. -/
def MakeInitialChoice (secure : Int → Option Int) (fallbackRNG : Int → Int)
    (g : Game) (doorIndex : Int) : Game × Option String :=
  if g.Phase ≠ GamePhase.InitialChoice then
    (g, some "not in initial choice phase")
  else if doorIndex < 0 ∨ doorIndex ≥ (g.Doors.length : Int) then
    (g, some "door index out of range")
  else
    let g1 : Game :=
      { g with
        PlayerInitialChoice := doorIndex
        Doors := setDoorAt g.Doors doorIndex Door.Select
        Phase := GamePhase.HostReveal }
    match ChooseDoorToOpen secure fallbackRNG g1.Doors doorIndex with
    | Except.error e => (g1, some ("host error: " ++ e))
    | Except.ok hostDoor =>
        ({ g1 with
            HostOpenedDoor := hostDoor
            Doors := setDoorAt g1.Doors hostDoor Door.Open
            Phase := GamePhase.FinalChoice }, none)

/-- Method `Game.calculateResult` (`game.go`): derives the strategy from the
two choice indices, reads the win flag off the final-choice door, and stores
a `GameResult` whose four door indices are the internal ones plus one
(1-indexed for display). -/
def calculateResult (g : Game) : Game :=
  let strategy :=
    if g.PlayerFinalChoice ≠ g.PlayerInitialChoice then PlayerStrategy.Switch
    else PlayerStrategy.Stay
  let won := (g.Doors.getD g.PlayerFinalChoice.toNat default).HasCar
  { g with
    Result := some
      { Won := won
        Strategy := strategy
        InitialChoice := g.PlayerInitialChoice + 1
        FinalChoice := g.PlayerFinalChoice + 1
        CarPosition := g.CarPosition + 1
        HostOpenedDoor := g.HostOpenedDoor + 1 } }

/-- Method `Game.MakeFinalChoice` (`game.go`): validates phase, range and
that the target door is not open; then resets the initial-choice door,
selects the target, records it, advances to `GameOver` and computes the
result. -/
def MakeFinalChoice (g : Game) (doorIndex : Int) : Game × Option String :=
  if g.Phase ≠ GamePhase.FinalChoice then
    (g, some "not in final choice phase")
  else if doorIndex < 0 ∨ doorIndex ≥ (g.Doors.length : Int) then
    (g, some "door index out of range")
  else if (g.Doors.getD doorIndex.toNat default).IsOpen then
    (g, some "cannot choose an opened door")
  else
    let g2 : Game :=
      { g with
        PlayerFinalChoice := doorIndex
        Doors := setDoorAt (setDoorAt g.Doors g.PlayerInitialChoice Door.Reset)
          doorIndex Door.Select
        Phase := GamePhase.GameOver }
    (calculateResult g2, none)

/-- Method `Game.SwitchChoice` (`game.go`): checks the phase, then delegates
`MakeFinalChoice` to the first door index that is not open and differs from
the initial choice; errors when no such door exists. -/
def SwitchChoice (g : Game) : Game × Option String :=
  if g.Phase ≠ GamePhase.FinalChoice then
    (g, some "not in final choice phase")
  else
    match (List.range g.Doors.length).find?
        (fun (i : Nat) => !(g.Doors.getD i default).IsOpen &&
          decide ((i : Int) ≠ g.PlayerInitialChoice)) with
    | some i => MakeFinalChoice g (i : Int)
    | none => (g, some "no valid door to switch to")

/-- Method `Game.StayWithChoice` (`game.go`): delegates `MakeFinalChoice`
on the initial choice. -/
def StayWithChoice (g : Game) : Game × Option String :=
  MakeFinalChoice g g.PlayerInitialChoice

/-- Method `Game.Reset` (`game.go`): `*g = *NewGame()` — the whole receiver
is replaced by a freshly constructed game. -/
def Game.Reset (rng : Int → Int) (_g : Game) : Game :=
  NewGame rng

/-! Helper lemmas about the embedding. -/

/-- A door update in the list keeps the list length. -/
theorem length_setDoorAt (doors : List Door) (i : Int) (f : Door → Door) :
    (setDoorAt doors i f).length = doors.length := by
  induction doors generalizing i with
  | nil => rfl
  | cons d rest ih => simp [setDoorAt, ih]

/-- Pointwise description of a door update: position `k` is transformed
when `k = i` (and `k` is in range), every other position is untouched. -/
theorem getD_setDoorAt (doors : List Door) (i : Int) (f : Door → Door) (k : Nat) :
    (setDoorAt doors i f).getD k default =
      if (k : Int) = i ∧ k < doors.length then f (doors.getD k default)
      else doors.getD k default := by
  induction doors generalizing i k with
  | nil => simp [setDoorAt]
  | cons d rest ih =>
    cases k with
    | zero =>
      by_cases hi : i = 0 <;>
        simp [setDoorAt, hi, List.getD_cons_zero, eq_comm]
    | succ k =>
      simp only [setDoorAt, List.getD_cons_succ]
      rw [ih]
      have hcond : ((k : Int) = i - 1 ∧ k < rest.length) ↔
          (((k + 1 : Nat) : Int) = i ∧ k + 1 < rest.length + 1) := by
        push_cast
        omega
      simp only [List.length_cons]
      by_cases hc : (k : Int) = i - 1 ∧ k < rest.length
      · rw [if_pos hc, if_pos (hcond.mp hc)]
      · rw [if_neg hc, if_neg (fun hx => hc (hcond.mpr hx))]

/-- Door updates arising in the game (`Open`, `Select`, `Reset`) only touch
the `State` field; the content column of the list is preserved. -/
theorem map_content_setDoorAt (doors : List Door) (i : Int) (f : Door → Door)
    (hf : ∀ d, (f d).Content = d.Content) :
    (setDoorAt doors i f).map Door.Content = doors.map Door.Content := by
  induction doors generalizing i with
  | nil => rfl
  | cons d rest ih =>
    by_cases hi : i = 0 <;> simp [setDoorAt, hi, hf, ih]

/-- Count of car doors only depends on the content column. -/
theorem carCount_eq_of_map_content_eq {doors₁ doors₂ : List Door}
    (h : doors₁.map Door.Content = doors₂.map Door.Content) :
    carCount doors₁ = carCount doors₂ := by
  induction doors₁ generalizing doors₂ with
  | nil => cases doors₂ <;> simp_all [carCount]
  | cons d rest ih =>
    cases doors₂ with
    | nil => simp_all
    | cons d₂ rest₂ =>
      simp only [List.map_cons, List.cons.injEq] at h
      have hrest := ih h.2
      simp only [carCount, Door.HasCar] at hrest ⊢
      simp only [List.filter_cons, h.1]
      split <;> simp [hrest]

/-- Range guarantee of `SecureRandom.Intn`: for a positive bound and
well-behaved sources, the draw lies in `[0, n)`. -/
theorem SecureRandom.Intn_range {secure : Int → Option Int} {fallbackRNG : Int → Int}
    (hs : SecureSourceOk secure) (hf : IntnSourceOk fallbackRNG)
    {n : Int} (hn : 0 < n) :
    0 ≤ SecureRandom.Intn secure fallbackRNG n ∧
      SecureRandom.Intn secure fallbackRNG n < n := by
  unfold SecureRandom.Intn
  rw [if_neg (by omega)]
  cases hsec : secure n with
  | some r => exact hs n r hsec
  | none => exact hf n hn

/-- Membership in the host's candidate list. -/
theorem mem_hostValidChoices {doors : List Door} {playerChoice : Int} {k : Nat} :
    k ∈ hostValidChoices doors playerChoice ↔
      k < doors.length ∧ (k : Int) ≠ playerChoice ∧
        (doors.getD k default).HasGoat = true := by
  simp [hostValidChoices, List.mem_filter, List.mem_range, and_assoc]

/-- A successful `ChooseDoorToOpen` returns a member of the candidate
list: an in-range index that is not the player's choice and whose door has
a goat. -/
theorem ChooseDoorToOpen_ok_mem {secure : Int → Option Int} {fallbackRNG : Int → Int}
    {doors : List Door} {playerChoice : Int} {j : Int}
    (hs : SecureSourceOk secure) (hf : IntnSourceOk fallbackRNG)
    (h : ChooseDoorToOpen secure fallbackRNG doors playerChoice = Except.ok j) :
    ∃ k : Nat, j = (k : Int) ∧ k ∈ hostValidChoices doors playerChoice := by
  simp only [ChooseDoorToOpen] at h
  split_ifs at h with h1 h2 h3 h4
  · -- exactly one candidate: the head is returned
    refine ⟨(hostValidChoices doors playerChoice).getD 0 0, ?_, ?_⟩
    · injection h with h
      exact h.symm
    · have h0 : 0 < (hostValidChoices doors playerChoice).length := by omega
      rw [List.getD_eq_getElem _ _ h0]
      exact List.getElem_mem h0
  · -- two candidates: a secure draw picks among them
    have hlen : 0 < (hostValidChoices doors playerChoice).length := by omega
    have hpos : (0 : Int) < ((hostValidChoices doors playerChoice).length : Int) := by
      exact_mod_cast hlen
    obtain ⟨hge, hlt⟩ := SecureRandom.Intn_range hs hf hpos
    set r := SecureRandom.Intn secure fallbackRNG
      ((hostValidChoices doors playerChoice).length : Int) with hr
    have hrn : r.toNat < (hostValidChoices doors playerChoice).length := by omega
    refine ⟨(hostValidChoices doors playerChoice).getD r.toNat 0, ?_, ?_⟩
    · injection h with h; exact h.symm
    · rw [List.getD_eq_getElem _ _ hrn]
      exact List.getElem_mem hrn

/-- Unfolding of the door list built by `CreateDoorsWithRandomCar`. -/
theorem CreateDoorsWithRandomCar_eq (rng : Int → Int) :
    CreateDoorsWithRandomCar rng =
      [NewDoor 1 0 (if (0 : Int) = rng 3 then DoorContent.Car else DoorContent.Goat),
       NewDoor 2 1 (if (1 : Int) = rng 3 then DoorContent.Car else DoorContent.Goat),
       NewDoor 3 2 (if (2 : Int) = rng 3 then DoorContent.Car else DoorContent.Goat)] := by
  rfl

/-- A fresh game has three doors. -/
theorem NewGame_doors_length (rng : Int → Int) : (NewGame rng).Doors.length = 3 := by
  rfl

/-- Door `k` of a fresh game: closed, car exactly at the drawn position. -/
theorem NewGame_doors_getD (rng : Int → Int) (k : Nat) (hk : k < 3) :
    (NewGame rng).Doors.getD k default =
      NewDoor ((k : Int) + 1) (k : Int)
        (if (k : Int) = rng 3 then DoorContent.Car else DoorContent.Goat) := by
  interval_cases k <;> rfl

/-- The cached car position of a fresh game is the pseudorandom draw
(provided the generator respects its range contract). -/
theorem NewGame_CarPosition {rng : Int → Int} (hr : IntnSourceOk rng) :
    (NewGame rng).CarPosition = rng 3 := by
  obtain ⟨hlo, hhi⟩ := hr 3 (by norm_num)
  simp only [NewGame, CreateDoorsWithRandomCar_eq]
  generalize hgen : rng 3 = p
  rw [hgen] at hlo hhi
  interval_cases p <;> decide

/-- A fresh game has exactly one car among its doors. -/
theorem carCount_NewGame {rng : Int → Int} (hr : IntnSourceOk rng) :
    carCount (NewGame rng).Doors = 1 := by
  obtain ⟨hlo, hhi⟩ := hr 3 (by norm_num)
  simp only [NewGame, CreateDoorsWithRandomCar_eq, carCount]
  generalize hgen : rng 3 = p
  rw [hgen] at hlo hhi
  interval_cases p <;> decide

/-- Characterization of a successful `MakeFinalChoice`: the phase and the
argument were valid, the target door was not open, and the new state is the
computed result state. -/
theorem MakeFinalChoice_ok {g : Game} {doorIndex : Int} {g2 : Game}
    (h : MakeFinalChoice g doorIndex = (g2, none)) :
    g.Phase = GamePhase.FinalChoice ∧ 0 ≤ doorIndex ∧
      doorIndex < (g.Doors.length : Int) ∧
      (g.Doors.getD doorIndex.toNat default).IsOpen = false ∧
      g2 = calculateResult
        { g with
          PlayerFinalChoice := doorIndex
          Doors := setDoorAt (setDoorAt g.Doors g.PlayerInitialChoice Door.Reset)
            doorIndex Door.Select
          Phase := GamePhase.GameOver } := by
  simp only [MakeFinalChoice] at h
  split_ifs at h with h1 h2 h3
  · simp at h
  · simp at h
  · simp at h
  · push_neg at h2
    have h3' : (g.Doors.getD doorIndex.toNat default).IsOpen = false := by
      simpa using h3
    rw [Prod.mk.injEq] at h
    exact ⟨not_not.mp h1, h2.1, h2.2, h3', h.1.symm⟩

/-- Characterization of a successful `MakeInitialChoice`: the phase and the
argument were valid, the host produced a door, and the new state records
both choices with the two door-state updates applied. -/
theorem MakeInitialChoice_ok {secure : Int → Option Int} {fallbackRNG : Int → Int}
    {g : Game} {doorIndex : Int} {g1 : Game}
    (h : MakeInitialChoice secure fallbackRNG g doorIndex = (g1, none)) :
    g.Phase = GamePhase.InitialChoice ∧ 0 ≤ doorIndex ∧
      doorIndex < (g.Doors.length : Int) ∧
      ∃ hostDoor : Int,
        ChooseDoorToOpen secure fallbackRNG
          (setDoorAt g.Doors doorIndex Door.Select) doorIndex = Except.ok hostDoor ∧
        g1 = { g with
                PlayerInitialChoice := doorIndex
                Doors := setDoorAt (setDoorAt g.Doors doorIndex Door.Select)
                  hostDoor Door.Open
                Phase := GamePhase.FinalChoice
                HostOpenedDoor := hostDoor } := by
  simp only [MakeInitialChoice] at h
  split_ifs at h with h1 h2
  · simp at h
  · simp at h
  · push_neg at h2
    cases hE : ChooseDoorToOpen secure fallbackRNG
        (setDoorAt g.Doors doorIndex Door.Select) doorIndex with
    | error e =>
      rw [hE] at h
      simp at h
    | ok hd =>
      rw [hE] at h
      rw [Prod.mk.injEq] at h
      exact ⟨not_not.mp h1, h2.1, h2.2, hd, rfl, h.1.symm⟩

/-- Content of a door is not affected by the goat/car test helpers. -/
theorem Door.HasGoat_eq_not_HasCar (d : Door) : d.HasGoat = !d.HasCar := by
  rcases d with ⟨_, _, c, _⟩
  cases c <;> rfl

/-! Claim theorems. -/

/-- C1: whenever `MakeInitialChoice` succeeded and `MakeFinalChoice
doorIndex` then succeeds, the stored `Result` has `Won` equal to whether
the final-choice door has the car, and `Strategy` equal to `Switch` if the
final choice index differs from the initial choice index and `Stay`
otherwise. -/
theorem C1_result_won_and_strategy
    {secure : Int → Option Int} {fallbackRNG : Int → Int}
    {g g1 g2 : Game} {i j : Int}
    (h1 : MakeInitialChoice secure fallbackRNG g i = (g1, none))
    (h2 : MakeFinalChoice g1 j = (g2, none)) :
    ∃ r, g2.Result = some r ∧
      r.Won = (g2.Doors.getD j.toNat default).HasCar ∧
      r.Strategy =
        (if j ≠ i then PlayerStrategy.Switch else PlayerStrategy.Stay) := by
  obtain ⟨-, -, -, hd, -, hg1⟩ := MakeInitialChoice_ok h1
  obtain ⟨-, -, -, -, hg2⟩ := MakeFinalChoice_ok h2
  subst hg2
  subst hg1
  exact ⟨_, rfl, rfl, rfl⟩

/-- C7: the four door indices stored in the `Result` of a completed game
are the internal 0-based indices plus one (1-based, for display). -/
theorem C7_result_indices_one_based {g g2 : Game} {j : Int}
    (h : MakeFinalChoice g j = (g2, none)) :
    ∃ r, g2.Result = some r ∧
      r.InitialChoice = g2.PlayerInitialChoice + 1 ∧
      r.FinalChoice = g2.PlayerFinalChoice + 1 ∧
      r.CarPosition = g2.CarPosition + 1 ∧
      r.HostOpenedDoor = g2.HostOpenedDoor + 1 := by
  obtain ⟨-, -, -, -, hg2⟩ := MakeFinalChoice_ok h
  subst hg2
  exact ⟨_, rfl, rfl, rfl, rfl, rfl⟩

/-- C8: refuted.  `CreateDoorsWithRandomCar` (`door.go`) draws the car
position from its freshly time-seeded pseudorandom generator and never
consults the secure source: with the pseudorandom generator returning `2`,
the car lands at index 2 even though a working secure source (which the
host's tie-break consults first, second conjunct) would have returned `0`.
The third conjunct shows `SecureRandom.Intn` uses its fallback generator
only when the secure draw fails, so the host tie-break half of the claim
does hold — the car-placement half does not. -/
theorem C8_car_placement_not_secure :
    ((CreateDoorsWithRandomCar (fun _ => 2)).getD 2 default).HasCar = true ∧
      SecureRandom.Intn (fun _ => some 0) (fun _ => 2) 3 = 0 ∧
      SecureRandom.Intn (fun _ => none) (fun _ => 1) 3 = 1 := by
  decide

/-- C10: `Reset`, called in any phase, replaces the game by a fresh one:
phase `InitialChoice`, all three choice indices `-1`, no `Result`, and a
new door set of three closed doors with exactly one car. -/
theorem C10_reset_fresh_game (g : Game) {rng : Int → Int}
    (hr : IntnSourceOk rng) :
    (Game.Reset rng g).Phase = GamePhase.InitialChoice ∧
      (Game.Reset rng g).PlayerInitialChoice = -1 ∧
      (Game.Reset rng g).PlayerFinalChoice = -1 ∧
      (Game.Reset rng g).HostOpenedDoor = -1 ∧
      (Game.Reset rng g).Result = none ∧
      (Game.Reset rng g).Doors.length = 3 ∧
      (∀ k : Nat, k < 3 →
        ((Game.Reset rng g).Doors.getD k default).IsClosed = true) ∧
      carCount (Game.Reset rng g).Doors = 1 := by
  refine ⟨rfl, rfl, rfl, rfl, rfl, rfl, ?_, carCount_NewGame hr⟩
  intro k hk
  show ((NewGame rng).Doors.getD k default).IsClosed = true
  rw [NewGame_doors_getD rng k hk]
  rfl

/-- C2: after a successful `MakeInitialChoice` on a fresh game, the
host-opened door index is never the player's initial choice index and
never the car's index — for every choice and every car position the
pseudorandom placement can produce. -/
theorem C2_host_avoids_choice_and_car
    {secure : Int → Option Int} {fallbackRNG : Int → Int} {rng : Int → Int}
    (hs : SecureSourceOk secure) (hf : IntnSourceOk fallbackRNG)
    (hr : IntnSourceOk rng) {c : Int} {g1 : Game}
    (h : MakeInitialChoice secure fallbackRNG (NewGame rng) c = (g1, none)) :
    g1.HostOpenedDoor ≠ c ∧ g1.HostOpenedDoor ≠ (NewGame rng).CarPosition := by
  obtain ⟨-, -, -, hd, hE, hg1⟩ := MakeInitialChoice_ok h
  obtain ⟨k, rfl, hmem⟩ := ChooseDoorToOpen_ok_mem hs hf hE
  rw [mem_hostValidChoices] at hmem
  obtain ⟨hklen, hkc, hgoat⟩ := hmem
  rw [length_setDoorAt, NewGame_doors_length] at hklen
  -- the selection update does not change door contents
  have hgoat' : (((NewGame rng).Doors.getD k default).HasGoat) = true := by
    rw [getD_setDoorAt] at hgoat
    split at hgoat
    · simpa [Door.Select, Door.HasGoat] using hgoat
    · exact hgoat
  -- a goat door is not the car door
  have hkcar : (k : Int) ≠ rng 3 := by
    rw [NewGame_doors_getD rng k hklen] at hgoat'
    intro hcon
    rw [hcon] at hgoat'
    simp [NewDoor, Door.HasGoat] at hgoat'
  have hcarpos := NewGame_CarPosition hr
  have hhost : g1.HostOpenedDoor = (k : Int) := by rw [hg1]
  rw [hhost, hcarpos]
  exact ⟨hkc, hkcar⟩

/-- A failing `MakeFinalChoice` leaves the game state untouched: all three
validations happen before any mutation. -/
theorem MakeFinalChoice_err {g : Game} {doorIndex : Int} {g1 : Game} {e : String}
    (h : MakeFinalChoice g doorIndex = (g1, some e)) : g1 = g := by
  simp only [MakeFinalChoice] at h
  split_ifs at h <;>
    first
      | (rw [Prod.mk.injEq] at h; exact h.1.symm)
      | simp at h

/-- A failing `SwitchChoice` leaves the game state untouched. -/
theorem SwitchChoice_err {g : Game} {g1 : Game} {e : String}
    (h : SwitchChoice g = (g1, some e)) : g1 = g := by
  simp only [SwitchChoice] at h
  split_ifs at h with h1
  · rw [Prod.mk.injEq] at h
    exact h.1.symm
  · cases hF : (List.range g.Doors.length).find?
        (fun (i : Nat) => !(g.Doors.getD i default).IsOpen &&
          decide ((i : Int) ≠ g.PlayerInitialChoice)) with
    | none =>
      rw [hF] at h
      rw [Prod.mk.injEq] at h
      exact h.1.symm
    | some i =>
      rw [hF] at h
      exact MakeFinalChoice_err h

/-- With three doors, exactly one car and a valid player choice, the host
always finds a door to open: `ChooseDoorToOpen` cannot fail. -/
theorem ChooseDoorToOpen_ne_error (secure : Int → Option Int)
    (fallbackRNG : Int → Int) {doors : List Door} {playerChoice : Int}
    (hlen : doors.length = 3) (hcar : carCount doors = 1)
    (hlo : 0 ≤ playerChoice) (hhi : playerChoice < 3) :
    ∃ j, ChooseDoorToOpen secure fallbackRNG doors playerChoice = Except.ok j := by
  have hne : (hostValidChoices doors playerChoice).length ≠ 0 := by
    rcases List.length_eq_three.mp hlen with ⟨d0, d1, d2, rfl⟩
    cases hb0 : d0.HasCar <;> cases hb1 : d1.HasCar <;> cases hb2 : d2.HasCar <;>
      simp only [carCount, List.filter, hb0, hb1, hb2, List.length_cons,
        List.length_nil] at hcar <;>
      try omega
    all_goals
      interval_cases playerChoice <;>
        simp [hostValidChoices, Door.HasGoat_eq_not_HasCar, hb0, hb1, hb2,
          List.filter]
  simp only [ChooseDoorToOpen]
  rw [if_neg (by simp [hlen, NumDoors]),
    if_neg (by rw [hlen]; push_neg; norm_num; omega)]
  rw [if_neg hne]
  by_cases h1 : (hostValidChoices doors playerChoice).length = 1
  · rw [if_pos h1]
    exact ⟨_, rfl⟩
  · rw [if_neg h1]
    exact ⟨_, rfl⟩

/-- A failing `MakeInitialChoice` on a well-formed game (three doors,
exactly one car) leaves the game state untouched: both validations happen
before any mutation, and the host call after the mutations cannot fail. -/
theorem MakeInitialChoice_err {secure : Int → Option Int}
    {fallbackRNG : Int → Int} {g : Game} {doorIndex : Int} {g1 : Game} {e : String}
    (hlen : g.Doors.length = 3) (hcar : carCount g.Doors = 1)
    (h : MakeInitialChoice secure fallbackRNG g doorIndex = (g1, some e)) :
    g1 = g := by
  simp only [MakeInitialChoice] at h
  split_ifs at h with h1 h2
  · rw [Prod.mk.injEq] at h
    exact h.1.symm
  · rw [Prod.mk.injEq] at h
    exact h.1.symm
  · push_neg at h2
    have hlen' : (setDoorAt g.Doors doorIndex Door.Select).length = 3 := by
      rw [length_setDoorAt, hlen]
    have hcar' : carCount (setDoorAt g.Doors doorIndex Door.Select) = 1 := by
      rw [carCount_eq_of_map_content_eq
        (map_content_setDoorAt g.Doors doorIndex Door.Select (fun d => rfl))]
      exact hcar
    obtain ⟨j, hj⟩ := ChooseDoorToOpen_ne_error secure fallbackRNG hlen' hcar'
      h2.1 (by rw [hlen] at h2; exact_mod_cast h2.2)
    rw [hj] at h
    simp at h

/-- C3: every transition operation that returns an error leaves the game
state — phase, choice fields and all door states — exactly as it was, on
any well-formed game (three doors, exactly one car). -/
theorem C3_errors_leave_state_unchanged (g : Game)
    (hlen : g.Doors.length = 3) (hcar : carCount g.Doors = 1) :
    (∀ (secure : Int → Option Int) (fallbackRNG : Int → Int) (i : Int)
        (g1 : Game) (e : String),
      MakeInitialChoice secure fallbackRNG g i = (g1, some e) → g1 = g) ∧
    (∀ (i : Int) (g1 : Game) (e : String),
      MakeFinalChoice g i = (g1, some e) → g1 = g) ∧
    (∀ (g1 : Game) (e : String), SwitchChoice g = (g1, some e) → g1 = g) ∧
    (∀ (g1 : Game) (e : String), StayWithChoice g = (g1, some e) → g1 = g) := by
  refine ⟨?_, ?_, ?_, ?_⟩
  · intro secure fallbackRNG i g1 e h
    exact MakeInitialChoice_err hlen hcar h
  · intro i g1 e h
    exact MakeFinalChoice_err h
  · intro g1 e h
    exact SwitchChoice_err h
  · intro g1 e h
    exact MakeFinalChoice_err h

/-- One externally triggered transition of the state machine; the
initial-choice trigger carries the random sources its host call consumes,
so a sequence of operations can use arbitrary random outcomes at each
step. -/
inductive GameOp where
  | initialChoice (secure : Int → Option Int) (fallbackRNG : Int → Int) (doorIndex : Int)
  | finalChoice (doorIndex : Int)
  | switchChoice
  | stayWithChoice

/-- The state reached after one transition call (the returned error, if
any, is discarded: the receiver state is what the caller keeps). -/
def applyOp : GameOp → Game → Game
  | GameOp.initialChoice secure fallbackRNG i, g => (MakeInitialChoice secure fallbackRNG g i).1
  | GameOp.finalChoice i, g => (MakeFinalChoice g i).1
  | GameOp.switchChoice, g => (SwitchChoice g).1
  | GameOp.stayWithChoice, g => (StayWithChoice g).1

/-- The state reached after a sequence of transition calls. -/
def applyOps (ops : List GameOp) (g : Game) : Game :=
  ops.foldl (fun g op => applyOp op g) g

/-- A final choice never changes any door's content. -/
theorem map_content_MakeFinalChoice (g : Game) (i : Int) :
    ((MakeFinalChoice g i).1).Doors.map Door.Content = g.Doors.map Door.Content := by
  simp only [MakeFinalChoice]
  split_ifs
  · rfl
  · rfl
  · rfl
  · show (setDoorAt (setDoorAt g.Doors g.PlayerInitialChoice Door.Reset) i
        Door.Select).map Door.Content = g.Doors.map Door.Content
    rw [map_content_setDoorAt _ i Door.Select (fun d => rfl),
      map_content_setDoorAt _ g.PlayerInitialChoice Door.Reset (fun d => rfl)]

/-- No transition changes any door's content: `Open`, `Select` and `Reset`
only touch the `State` field. -/
theorem map_content_applyOp (op : GameOp) (g : Game) :
    (applyOp op g).Doors.map Door.Content = g.Doors.map Door.Content := by
  have hself : ∀ doors i f, (∀ d : Door, (f d).Content = d.Content) →
      (setDoorAt doors i f).map Door.Content = doors.map Door.Content :=
    fun doors i f hf => map_content_setDoorAt doors i f hf
  cases op with
  | initialChoice secure fallbackRNG i =>
    simp only [applyOp, MakeInitialChoice]
    split_ifs
    · rfl
    · rfl
    · cases ChooseDoorToOpen secure fallbackRNG (setDoorAt g.Doors i Door.Select) i with
      | error e => simpa using hself g.Doors i Door.Select (fun d => rfl)
      | ok hd =>
        show (setDoorAt (setDoorAt g.Doors i Door.Select) hd Door.Open).map Door.Content
          = g.Doors.map Door.Content
        rw [hself _ hd Door.Open (fun d => rfl), hself _ i Door.Select (fun d => rfl)]
  | finalChoice i =>
    exact map_content_MakeFinalChoice g i
  | switchChoice =>
    simp only [applyOp, SwitchChoice]
    split_ifs
    · rfl
    · cases (List.range g.Doors.length).find?
          (fun (i : Nat) => !(g.Doors.getD i default).IsOpen &&
            decide ((i : Int) ≠ g.PlayerInitialChoice)) with
      | none => rfl
      | some i =>
        show ((MakeFinalChoice g (i : Int)).1).Doors.map Door.Content
          = g.Doors.map Door.Content
        exact map_content_MakeFinalChoice g (i : Int)
  | stayWithChoice =>
    exact map_content_MakeFinalChoice g g.PlayerInitialChoice

/-- Door contents are preserved across any sequence of transitions. -/
theorem map_content_applyOps (ops : List GameOp) (g : Game) :
    (applyOps ops g).Doors.map Door.Content = g.Doors.map Door.Content := by
  induction ops generalizing g with
  | nil => rfl
  | cons op tl ih =>
    show (applyOps tl (applyOp op g)).Doors.map Door.Content = _
    rw [ih (applyOp op g), map_content_applyOp]

/-- C4: for every fresh game and every sequence of transition operations,
the door set still holds exactly one car, and indeed the whole content
column of the door list is never mutated. -/
theorem C4_exactly_one_car_invariant {rng : Int → Int} (hr : IntnSourceOk rng)
    (ops : List GameOp) :
    carCount (applyOps ops (NewGame rng)).Doors = 1 ∧
      (applyOps ops (NewGame rng)).Doors.map Door.Content =
        (NewGame rng).Doors.map Door.Content := by
  refine ⟨?_, map_content_applyOps ops (NewGame rng)⟩
  rw [carCount_eq_of_map_content_eq (map_content_applyOps ops (NewGame rng))]
  exact carCount_NewGame hr

/-- C6: on a three-door set with one car, when the host's candidate set
has exactly one element, `ChooseDoorToOpen` returns that element with no
error — and the answer is independent of both random sources, i.e. no
random draw is involved. -/
theorem C6_single_candidate_deterministic {doors : List Door}
    {playerChoice : Int} {j : Nat}
    (hlen : doors.length = 3) (_hcar : carCount doors = 1)
    (hlo : 0 ≤ playerChoice) (hhi : playerChoice < 3)
    (hvc : hostValidChoices doors playerChoice = [j]) :
    ∀ (secure : Int → Option Int) (fallbackRNG : Int → Int),
      ChooseDoorToOpen secure fallbackRNG doors playerChoice =
        Except.ok (j : Int) := by
  intro secure fallbackRNG
  simp only [ChooseDoorToOpen, hvc]
  rw [if_neg (by simp [hlen, NumDoors]),
    if_neg (by rw [hlen]; push_neg; norm_num; omega)]
  simp

/-- C9: on a three-door set where no door is open, for any valid player
choice `GetSwitchRecommendation` returns (with no error) the smallest
index different from the choice — `1` when the choice is `0`, `0`
otherwise — and `GetHint` names that same door (1-based). -/
theorem C9_recommendation_before_reveal {doors : List Door}
    {playerChoice : Int}
    (hlen : doors.length = 3)
    (hclosed : ∀ k : Nat, k < doors.length → (doors.getD k default).IsOpen = false)
    (hlo : 0 ≤ playerChoice) (hhi : playerChoice < 3) :
    GetSwitchRecommendation doors playerChoice =
        Except.ok (if playerChoice = 0 then 1 else 0) ∧
      (if playerChoice = 0 then (1 : Int) else 0) ≠ playerChoice ∧
      (∀ k : Nat, (k : Int) ≠ playerChoice →
        (if playerChoice = 0 then (1 : Int) else 0) ≤ (k : Int)) ∧
      GetHint doors playerChoice =
        "Statistically, switching to door " ++
          toString ((if playerChoice = 0 then (1 : Int) else 0) + 1) ++
          " gives you better odds!" := by
  have hc0 : ((doors[0]?).getD default).IsOpen = false := by
    simpa using hclosed 0 (by omega)
  have hc1 : ((doors[1]?).getD default).IsOpen = false := by
    simpa using hclosed 1 (by omega)
  have hrange : List.range doors.length = [0, 1, 2] := by rw [hlen]; rfl
  have hrec : GetSwitchRecommendation doors playerChoice =
      Except.ok (if playerChoice = 0 then 1 else 0) := by
    simp only [GetSwitchRecommendation, hrange]
    rw [if_neg (by simp [hlen, NumDoors]),
      if_neg (by rw [hlen]; push_neg; norm_num; omega)]
    by_cases hp : playerChoice = 0
    · subst hp
      rw [List.find?_cons_of_neg _ (by simp), List.find?_cons_of_pos _ (by simp [hc1])]
      norm_num
    · rw [List.find?_cons_of_pos _ (by simp [hc0]; omega)]
      simp [hp]
  refine ⟨hrec, ?_, ?_, ?_⟩
  · by_cases hp : playerChoice = 0
    · rw [if_pos hp, hp]
      norm_num
    · rw [if_neg hp]
      omega
  · intro k hk
    by_cases hp : playerChoice = 0
    · rw [if_pos hp]
      rw [hp] at hk
      omega
    · rw [if_neg hp]
      omega
  · simp only [GetHint]
    rw [if_neg (by rw [hlen]; push_neg; norm_num; omega), hrec]

/-- C5: in the `FinalChoice` phase reached by a successful
`MakeInitialChoice` on a fresh game, `SwitchChoice` succeeds and sets the
final choice to the unique door index that is neither opened (the only
open door is the host's) nor the initial choice, the resulting strategy is
`Switch`, and in particular initial choice 0 with host door 2 yields final
choice 1. -/
theorem C5_switch_picks_remaining_door
    {secure : Int → Option Int} {fallbackRNG : Int → Int} {rng : Int → Int}
    (hs : SecureSourceOk secure) (hf : IntnSourceOk fallbackRNG)
    {c : Int} {g1 : Game}
    (h : MakeInitialChoice secure fallbackRNG (NewGame rng) c = (g1, none)) :
    (SwitchChoice g1).2 = none ∧
      (0 ≤ ((SwitchChoice g1).1).PlayerFinalChoice ∧
        ((SwitchChoice g1).1).PlayerFinalChoice < 3) ∧
      ((SwitchChoice g1).1).PlayerFinalChoice ≠ c ∧
      ((SwitchChoice g1).1).PlayerFinalChoice ≠ g1.HostOpenedDoor ∧
      (∀ k : Nat, k < 3 →
        ((g1.Doors.getD k default).IsOpen = true ↔ (k : Int) = g1.HostOpenedDoor)) ∧
      (∀ k : Nat, k < 3 → (k : Int) ≠ c → (k : Int) ≠ g1.HostOpenedDoor →
        (k : Int) = ((SwitchChoice g1).1).PlayerFinalChoice) ∧
      (((SwitchChoice g1).1).Result.map GameResult.Strategy =
        some PlayerStrategy.Switch) ∧
      (c = 0 ∧ g1.HostOpenedDoor = 2 →
        ((SwitchChoice g1).1).PlayerFinalChoice = 1) := by
  obtain ⟨-, hcc0, hclen, hd, hE, hg1⟩ := MakeInitialChoice_ok h
  obtain ⟨k, rfl, hmem⟩ := ChooseDoorToOpen_ok_mem hs hf hE
  rw [mem_hostValidChoices] at hmem
  obtain ⟨hklen, hkc, -⟩ := hmem
  rw [length_setDoorAt, NewGame_doors_length] at hklen
  rw [NewGame_doors_length] at hclen
  have hc3 : c < 3 := by exact_mod_cast hclen
  subst hg1
  interval_cases c <;> interval_cases k <;>
    first
      | omega
      | exact of_decide_eq_true rfl

/-! Concrete instantiations used by the witness theorems below. -/

/-- Witness secure source: succeeds with `0` on every positive bound. -/
def secureW : Int → Option Int := fun n => if 0 < n then some 0 else none

/-- Witness `math/rand` generator: always returns `0`. -/
def intnW : Int → Int := fun _ => 0

/-- Witness generator that always returns `1` (places the car at door 1). -/
def intnW1 : Int → Int := fun _ => 1

theorem secureW_ok : SecureSourceOk secureW := by
  intro n r hnr
  simp only [secureW] at hnr
  split_ifs at hnr with hpos
  injection hnr with hr
  omega

theorem intnW_ok : IntnSourceOk intnW := by
  intro n hn
  exact ⟨le_rfl, hn⟩

/-- Witness game: fresh game with the car behind door 0. -/
def gW : Game := NewGame intnW

/-- Witness game after the initial choice of door 0 (host opens door 1). -/
def gW1 : Game := (MakeInitialChoice secureW intnW gW 0).1

/-- Witness game after the final choice of door 2. -/
def gW2 : Game := (MakeFinalChoice gW1 2).1

/-- Witness door set with the car behind door 1. -/
def doorsW : List Door := CreateDoorsWithRandomCar intnW1

/-- Witness for C1: in the concrete game `gW` the player picks door 0, the
host opens door 1, the player finally picks door 2 — both hypotheses hold
and the conclusion follows by the claim theorem. -/
theorem C1_witness :
    MakeInitialChoice secureW intnW gW 0 = (gW1, none) ∧
      MakeFinalChoice gW1 2 = (gW2, none) ∧
      ∃ r, gW2.Result = some r ∧
        r.Won = (gW2.Doors.getD (2 : Int).toNat default).HasCar ∧
        r.Strategy =
          (if (2 : Int) ≠ 0 then PlayerStrategy.Switch else PlayerStrategy.Stay) := by
  have h1 : MakeInitialChoice secureW intnW gW 0 = (gW1, none) := by decide
  have h2 : MakeFinalChoice gW1 2 = (gW2, none) := by decide
  exact ⟨h1, h2, C1_result_won_and_strategy h1 h2⟩

/-- Witness for C2 at choice 0 on the concrete fresh game. -/
theorem C2_witness :
    SecureSourceOk secureW ∧ IntnSourceOk intnW ∧
      MakeInitialChoice secureW intnW (NewGame intnW) 0 = (gW1, none) ∧
      (gW1.HostOpenedDoor ≠ 0 ∧
        gW1.HostOpenedDoor ≠ (NewGame intnW).CarPosition) := by
  have h : MakeInitialChoice secureW intnW (NewGame intnW) 0 = (gW1, none) := by
    decide
  exact ⟨secureW_ok, intnW_ok, h,
    C2_host_avoids_choice_and_car secureW_ok intnW_ok intnW_ok h⟩

/-- Witness for C3 on the concrete fresh game. -/
theorem C3_witness :
    (gW.Doors.length = 3 ∧ carCount gW.Doors = 1) ∧
      ((∀ (secure : Int → Option Int) (fallbackRNG : Int → Int) (i : Int)
          (g1 : Game) (e : String),
        MakeInitialChoice secure fallbackRNG gW i = (g1, some e) → g1 = gW) ∧
      (∀ (i : Int) (g1 : Game) (e : String),
        MakeFinalChoice gW i = (g1, some e) → g1 = gW) ∧
      (∀ (g1 : Game) (e : String), SwitchChoice gW = (g1, some e) → g1 = gW) ∧
      (∀ (g1 : Game) (e : String), StayWithChoice gW = (g1, some e) → g1 = gW)) :=
  ⟨⟨by decide, by decide⟩,
    C3_errors_leave_state_unchanged gW (by decide) (by decide)⟩

/-- Witness for C4: a concrete two-operation play (initial choice then
switch) on the concrete fresh game. -/
theorem C4_witness :
    IntnSourceOk intnW ∧
      (carCount (applyOps [GameOp.initialChoice secureW intnW 0,
          GameOp.switchChoice] (NewGame intnW)).Doors = 1 ∧
        (applyOps [GameOp.initialChoice secureW intnW 0,
          GameOp.switchChoice] (NewGame intnW)).Doors.map Door.Content =
          (NewGame intnW).Doors.map Door.Content) :=
  ⟨intnW_ok, C4_exactly_one_car_invariant intnW_ok
    [GameOp.initialChoice secureW intnW 0, GameOp.switchChoice]⟩

/-- Witness for C5 at choice 0 on the concrete fresh game. -/
theorem C5_witness :
    SecureSourceOk secureW ∧ IntnSourceOk intnW ∧
      MakeInitialChoice secureW intnW (NewGame intnW) 0 = (gW1, none) ∧
      ((SwitchChoice gW1).2 = none ∧
        (0 ≤ ((SwitchChoice gW1).1).PlayerFinalChoice ∧
          ((SwitchChoice gW1).1).PlayerFinalChoice < 3) ∧
        ((SwitchChoice gW1).1).PlayerFinalChoice ≠ 0 ∧
        ((SwitchChoice gW1).1).PlayerFinalChoice ≠ gW1.HostOpenedDoor ∧
        (∀ k : Nat, k < 3 →
          ((gW1.Doors.getD k default).IsOpen = true ↔
            (k : Int) = gW1.HostOpenedDoor)) ∧
        (∀ k : Nat, k < 3 → (k : Int) ≠ 0 → (k : Int) ≠ gW1.HostOpenedDoor →
          (k : Int) = ((SwitchChoice gW1).1).PlayerFinalChoice) ∧
        (((SwitchChoice gW1).1).Result.map GameResult.Strategy =
          some PlayerStrategy.Switch) ∧
        ((0 : Int) = 0 ∧ gW1.HostOpenedDoor = 2 →
          ((SwitchChoice gW1).1).PlayerFinalChoice = 1)) := by
  have h : MakeInitialChoice secureW intnW (NewGame intnW) 0 = (gW1, none) := by
    decide
  exact ⟨secureW_ok, intnW_ok, h,
    C5_switch_picks_remaining_door secureW_ok intnW_ok h⟩

/-- Witness for C6: car behind door 1, player picks door 0 — the candidate
set is exactly `[2]` and the host deterministically opens door 2. -/
theorem C6_witness :
    (doorsW.length = 3 ∧ carCount doorsW = 1 ∧ (0 : Int) ≤ 0 ∧ (0 : Int) < 3 ∧
      hostValidChoices doorsW 0 = [2]) ∧
      ∀ (secure : Int → Option Int) (fallbackRNG : Int → Int),
        ChooseDoorToOpen secure fallbackRNG doorsW 0 =
          Except.ok ((2 : Nat) : Int) :=
  ⟨⟨by decide, by decide, by decide, by decide, by decide⟩,
    C6_single_candidate_deterministic (by decide) (by decide) (by decide)
      (by decide) (by decide)⟩

/-- Witness for C7 on the concrete completed game. -/
theorem C7_witness :
    MakeFinalChoice gW1 2 = (gW2, none) ∧
      ∃ r, gW2.Result = some r ∧
        r.InitialChoice = gW2.PlayerInitialChoice + 1 ∧
        r.FinalChoice = gW2.PlayerFinalChoice + 1 ∧
        r.CarPosition = gW2.CarPosition + 1 ∧
        r.HostOpenedDoor = gW2.HostOpenedDoor + 1 := by
  have h : MakeFinalChoice gW1 2 = (gW2, none) := by decide
  exact ⟨h, C7_result_indices_one_based h⟩

/-- Witness for C9: the concrete all-closed door set, player choice 0. -/
theorem C9_witness :
    (doorsW.length = 3 ∧
      (∀ k : Nat, k < doorsW.length → (doorsW.getD k default).IsOpen = false) ∧
      (0 : Int) ≤ 0 ∧ (0 : Int) < 3) ∧
      (GetSwitchRecommendation doorsW 0 =
          Except.ok (if (0 : Int) = 0 then 1 else 0) ∧
        (if (0 : Int) = 0 then (1 : Int) else 0) ≠ 0 ∧
        (∀ k : Nat, (k : Int) ≠ 0 →
          (if (0 : Int) = 0 then (1 : Int) else 0) ≤ (k : Int)) ∧
        GetHint doorsW 0 =
          "Statistically, switching to door " ++
            toString ((if (0 : Int) = 0 then (1 : Int) else 0) + 1) ++
            " gives you better odds!") :=
  ⟨⟨by decide, by decide, by decide, by decide⟩,
    C9_recommendation_before_reveal (by decide) (by decide) (by decide)
      (by decide)⟩

/-- Witness for C10: resetting the concrete finished game. -/
theorem C10_witness :
    IntnSourceOk intnW ∧
      ((Game.Reset intnW gW2).Phase = GamePhase.InitialChoice ∧
        (Game.Reset intnW gW2).PlayerInitialChoice = -1 ∧
        (Game.Reset intnW gW2).PlayerFinalChoice = -1 ∧
        (Game.Reset intnW gW2).HostOpenedDoor = -1 ∧
        (Game.Reset intnW gW2).Result = none ∧
        (Game.Reset intnW gW2).Doors.length = 3 ∧
        (∀ k : Nat, k < 3 →
          ((Game.Reset intnW gW2).Doors.getD k default).IsClosed = true) ∧
        carCount (Game.Reset intnW gW2).Doors = 1) :=
  ⟨intnW_ok, C10_reset_fresh_game gW2 intnW_ok⟩

end MontyHall
